import Mathlib

/-!
Verification of the core of the `ngxtop` repository: the log-format compiler
(`build_pattern` in `ngxtop/ngxtop.py` and `ngxtop/config_parser.py`), the
record-derivation pipeline of `parse_log` (`map_field`, `add_field`, `to_int`,
`to_float`, `parse_status_type`, `parse_request_path`), and the two aggregation
stores (`SQLProcessor` in `ngxtop/ngxtop.py` and in `ngxtop/sqlprocessor.py`).

Modelling conventions:
* Python strings are `String` / `List Char`; Python `int` is `Int`; Python
  `float` is `ℚ` (exact rational arithmetic; the claims under study never
  depend on rounding of binary floats); Python `None` is `PyVal.none`.
* Python dicts are total functions `String → Option PyVal` (`Option.none`
  means the key is absent; `some PyVal.none` means the key is present and
  maps to Python `None`, which is how `'k' in d` distinguishes them).
* Fallible Python code returns `Except PyErr _`; an uncaught exception is
  `.error e`.
* `re` patterns produced by `build_pattern` are modelled as a list of items
  (`RItem`): a literal character (regex specials that the code escapes match
  themselves), a named group `(?P<name>.*)`, a bare `$` (which the code does
  not escape, so it keeps its end-anchor meaning), and dedicated items for
  an unescaped `^` and an unescaped `\` (also left unescaped by the code).
  The item list is a faithful rendering of the assembled pattern text; the
  regex meta-semantics of `^` and of `\`-escapes is not modelled: the
  matcher conservatively fails on those items and the compile check
  conservatively rejects a pattern containing a backslash, and every
  theorem about matching or successful compilation excludes those items by
  hypothesis, so no theorem depends on the conservative arms.
-/

/-- One item of the regular expression assembled by `build_pattern`:
`exact c` matches exactly the character `c` (this is what the escaping of
`REGEX_SPECIAL_CHARS` achieves for the escaped set `. * + ? | ( ) { } [ ]`
and what ordinary characters do anyway); `group n` is the named capture
`(?P<n>.*)` substituted for `$n`; `dollar` is a bare `$` left in a literal
segment, which Python's `re` treats as an end anchor because `$` is not in
`REGEX_SPECIAL_CHARS`; `caret` is an unescaped `^` (a start anchor in the
real pattern) and `backslash` an unescaped `\` (which combines with the
following pattern text into a regex escape).  The `caret` and `backslash`
items render the pattern text faithfully, but their regex meta-semantics is
outside this model: the matcher and the compile check treat them
conservatively (see `matchItemsF` and `compileOk`) and every theorem that
concerns matching or successful compilation excludes them by hypothesis. -/
inductive RItem where
  | exact (c : Char)
  | group (n : String)
  | dollar
  | caret
  | backslash
deriving DecidableEq

/-- Characters matched by `REGEX_LOG_FORMAT_VARIABLE = r'\$([a-z0-9\_]+)'`
in `ngxtop/ngxtop.py` (lower-case letters, digits, underscore). -/
def isNameCharNgx (c : Char) : Bool :=
  ('a' ≤ c && c ≤ 'z') || ('0' ≤ c && c ≤ '9') || c == '_'

/-- Characters matched by `REGEX_LOG_FORMAT_VARIABLE = r'\$([a-zA-Z0-9\_]+)'`
in `ngxtop/config_parser.py` (also upper-case letters). -/
def isNameCharCfg (c : Char) : Bool :=
  isNameCharNgx c || ('A' ≤ c && c ≤ 'Z')

/-- Scanner computing the combined effect of the two `re.sub` calls of
`build_pattern`: every `$` followed by a maximal non-empty run of name
characters becomes a named group; a `$` not followed by a name character is
left in the pattern as a bare `$`; an unescaped `^` or `\` (neither is in
`REGEX_SPECIAL_CHARS`) is kept as its dedicated item; every other character
is (escaped if it is a regex special, and) matched literally.  `fuel` is an
upper bound on the input length, making the recursion structural. -/
def scanFormatF (nameChar : Char → Bool) : Nat → List Char → List RItem
  | _, [] => []
  | 0, _ :: _ => []
  | (fuel+1), c :: rest =>
    if c = '$' then
      match rest.takeWhile nameChar with
      | [] => RItem.dollar :: scanFormatF nameChar fuel rest
      | nm => RItem.group (String.mk nm) :: scanFormatF nameChar fuel (rest.drop nm.length)
    else if c = '^' then
      RItem.caret :: scanFormatF nameChar fuel rest
    else if c = '\\' then
      RItem.backslash :: scanFormatF nameChar fuel rest
    else
      RItem.exact c :: scanFormatF nameChar fuel rest

/-- Scan a whole format string into pattern items. -/
def scanFormat (nameChar : Char → Bool) (s : String) : List RItem :=
  scanFormatF nameChar s.data.length s.data

/-- `LOG_FORMAT_COMBINED` from `ngxtop/ngxtop.py` (also in `config_parser.py`). -/
def LOG_FORMAT_COMBINED : String :=
  "$remote_addr - $remote_user [$time_local] \"$request\" $status $body_bytes_sent \"$http_referer\" \"$http_user_agent\""

/-- `LOG_FORMAT_COMMON` from `ngxtop/config_parser.py` (not defined in `ngxtop.py`). -/
def LOG_FORMAT_COMMON : String :=
  "$remote_addr - $remote_user [$time_local] \"$request\" $status $body_bytes_sent \"$http_x_forwarded_for\""

/-- Names of the capture groups of a pattern, in order. -/
def groupNames : List RItem → List String
  | [] => []
  | RItem.group n :: rest => n :: groupNames rest
  | _ :: rest => groupNames rest

/-- The literal (exact-match) characters of a pattern, in order. -/
def exactChars : List RItem → List Char
  | [] => []
  | RItem.exact c :: rest => c :: exactChars rest
  | _ :: rest => exactChars rest

/-- No string occurs twice in the list. -/
def noDupNames : List String → Bool
  | [] => true
  | x :: xs => !(xs.contains x) && noDupNames xs

/-- Python's `re` accepts `(?P<name>...)` only when `name` is a valid
identifier; the names produced by the scanner consist of `[a-zA-Z0-9_]`, so
the only way they can fail to be identifiers is to start with a digit. -/
def validGroupName (n : String) : Bool :=
  match n.data with
  | [] => false
  | c :: _ => !('0' ≤ c && c ≤ '9')

/-- No unescaped backslash occurs in the pattern. -/
def backslashFree (items : List RItem) : Bool :=
  items.all (fun it => it != RItem.backslash)

/-- Success of `re.compile` on the assembled pattern.  `re.compile` raises
`re.error` when a group name is not a valid identifier ("bad character in
group name"), when a group name is used twice ("redefinition of group
name"), and on malformed escapes — in particular a pattern ending in a lone
`\` always raises ("bad escape (end of pattern)").  An unescaped `^` or `$`
never makes compilation fail.  Whether a non-trailing backslash escape
compiles depends on the characters after it (`\d` does, `\q` does not);
that region is outside this model and `compileOk` conservatively rejects
every pattern containing a `backslash` item.  Every theorem asserting a
successful compilation excludes backslash items, so no theorem relies on
the conservative direction of this arm. -/
def compileOk (items : List RItem) : Bool :=
  noDupNames (groupNames items) && (groupNames items).all validGroupName &&
    backslashFree items

/-- Model of `build_pattern` from `ngxtop/ngxtop.py` (lines 166-174): the
literal token `"combined"` is replaced by `LOG_FORMAT_COMBINED` (the source
does this by a recursive call, unfolded here once since
`LOG_FORMAT_COMBINED ≠ "combined"`); there is no case for `"common"` in this
file.  The two `re.sub` passes are `scanFormat`, and `re.compile` is the
`compileOk` test: `none` models `re.compile` raising `re.error`. -/
def build_pattern (log_format : String) : Option (List RItem) :=
  let fmt := if log_format = "combined" then LOG_FORMAT_COMBINED else log_format
  let items := scanFormat isNameCharNgx fmt
  if compileOk items then some items else Option.none

/-- Model of `build_pattern` from `ngxtop/config_parser.py` (lines 180-192):
both `"combined"` and `"common"` are replaced by the built-in templates, and
group names may also contain upper-case letters. -/
def config_build_pattern (log_format : String) : Option (List RItem) :=
  let fmt :=
    if log_format = "combined" then LOG_FORMAT_COMBINED
    else if log_format = "common" then LOG_FORMAT_COMMON
    else log_format
  let items := scanFormat isNameCharCfg fmt
  if compileOk items then some items else Option.none

/-- Backtracking loop for one `(?P<n>.*)` group: Python's greedy `*` first
lets the group swallow the longest run of non-newline characters and then
gives characters back one at a time until the rest of the pattern matches.
`tryLens n cs f k` tries capture lengths `k, k-1, …, 0`, where `f` matches
the rest of the pattern against the rest of the input. -/
def tryLens (n : String) (cs : List Char)
    (f : List Char → Option (List (String × String) × List Char)) :
    Nat → Option (List (String × String) × List Char)
  | 0 =>
    match f (cs.drop 0) with
    | some p => some ((n, String.mk (cs.take 0)) :: p.1, p.2)
    | Option.none => Option.none
  | (k+1) =>
    match f (cs.drop (k+1)) with
    | some p => some ((n, String.mk (cs.take (k+1))) :: p.1, p.2)
    | Option.none => tryLens n cs f k

/-- Matching semantics of the assembled pattern under `pattern.match` (Python
`re.match`): anchored at the start of the input, allowed to leave a suffix
unconsumed.  Returns the list of named captures in pattern order together
with the unconsumed suffix.  `.` does not match a newline; a bare `$`
matches at the end of the input or just before a trailing newline.  The
`caret` and `backslash` items are outside the modelled fragment (a real `^`
asserts position 0, which this suffix-based matcher does not track, and a
real `\` forms an escape with the following text): the matcher
conservatively fails on them; no theorem asserts anything about matching a
pattern containing them, and no theorem asserts a universal match failure,
so the conservative arms are never relied upon.  `fuel` is an upper bound
on the number of items, making the recursion structural. -/
def matchItemsF : Nat → List RItem → List Char → Option (List (String × String) × List Char)
  | _, [], cs => some ([], cs)
  | 0, _ :: _, _ => Option.none
  | (fuel+1), RItem.exact c :: rest, cs =>
    match cs with
    | [] => Option.none
    | c' :: cs' => if c' = c then matchItemsF fuel rest cs' else Option.none
  | (fuel+1), RItem.group n :: rest, cs =>
    tryLens n cs (fun t => matchItemsF fuel rest t)
      ((cs.takeWhile (fun c => c != '\n')).length)
  | (fuel+1), RItem.dollar :: rest, cs =>
    if cs = [] ∨ cs = ['\n'] then matchItemsF fuel rest cs else Option.none
  | (_+1), RItem.caret :: _, _ => Option.none
  | (_+1), RItem.backslash :: _, _ => Option.none

/-- Match a compiled pattern against an input, as `pattern.match(line)`. -/
def matchItems (items : List RItem) (cs : List Char) :
    Option (List (String × String) × List Char) :=
  matchItemsF items.length items cs

/-- The log line obtained from a template by substituting the value `σ n` for
each variable `$n` and keeping literal text verbatim. -/
def renderChars (σ : String → String) : List RItem → List Char
  | [] => []
  | RItem.exact c :: rest => c :: renderChars σ rest
  | RItem.group n :: rest => (σ n).data ++ renderChars σ rest
  | RItem.dollar :: rest => '$' :: renderChars σ rest
  | RItem.caret :: rest => '^' :: renderChars σ rest
  | RItem.backslash :: rest => '\\' :: renderChars σ rest

/-- Is the item a named group? -/
def isGroup : RItem → Bool
  | RItem.group _ => true
  | _ => false

/-- The template alternates literals and variables: no two variables are
adjacent (the shape invariant of a `FormatTemplate`). -/
def noAdjGroups : List RItem → Bool
  | a :: b :: rest => (!(isGroup a && isGroup b)) && noAdjGroups (b :: rest)
  | _ => true

/-- A Python value as it occurs in parsed records: a string, an `int`, a
`float` (modelled as an exact rational), or `None`. -/
inductive PyVal where
  | str (s : String)
  | int (n : Int)
  | rat (q : ℚ)
  | none
deriving DecidableEq

/-- A Python exception, by kind. -/
inductive PyErr where
  | valueError
  | typeError
  | keyError (k : String)
  | attributeError
  | zeroDivisionError
  | programmingError
deriving DecidableEq

/-- A Python dict with string keys: `Option.none` means the key is absent. -/
def PyDict : Type := String → Option PyVal

/-- Model of `item[field] = v`. -/
def PyDict.set (r : PyDict) (f : String) (v : PyVal) : PyDict :=
  fun k => if k = f then some v else r k

/-- Model of `item.get(field, None)`. -/
def PyDict.get (r : PyDict) (f : String) : PyVal :=
  (r f).getD PyVal.none

/-- The record with no keys. -/
def emptyRecord : PyDict := fun _ => Option.none

/-- A record literal: the dict holding exactly the listed key-value pairs. -/
def PyDict.ofList (kvs : List (String × PyVal)) : PyDict :=
  fun k =>
    match kvs.find? (fun p => p.1 == k) with
    | some p => some p.2
    | Option.none => Option.none

/-- Fixture: a capture of a log format that provides only `body_bytes_sent`. -/
def sampleCapture : PyDict := PyDict.ofList [("body_bytes_sent", PyVal.str "10")]

/-- Fixture: the result of deriving `sampleCapture` (all five fields added). -/
def sampleDerived : PyDict :=
  PyDict.set (PyDict.set (PyDict.set (PyDict.set (PyDict.set (PyDict.set sampleCapture
    "status" (PyVal.int 0)) "status_type" (PyVal.int 0)) "bytes_sent" (PyVal.str "10"))
    "bytes_sent" (PyVal.int 10)) "request_time" (PyVal.rat 0)) "request_path" PyVal.none

/-- Fixture: a capture from a template that itself contains `$status_type`. -/
def shadowCapture : PyDict :=
  PyDict.ofList [("status_type", PyVal.str "9"), ("body_bytes_sent", PyVal.str "1")]

/-- Fixture: the result of deriving `shadowCapture` (the captured string
survives because `add_field` skips present fields). -/
def shadowDerived : PyDict :=
  PyDict.set (PyDict.set (PyDict.set (PyDict.set (PyDict.set shadowCapture
    "status" (PyVal.int 0)) "bytes_sent" (PyVal.str "1")) "bytes_sent" (PyVal.int 1))
    "request_time" (PyVal.rat 0)) "request_path" PyVal.none

/-- Fixture: a well-formed capture with status 200. -/
def okCapture : PyDict :=
  PyDict.ofList [("status", PyVal.str "200"), ("body_bytes_sent", PyVal.str "1")]

/-- Fixture: a capture whose `status` value is non-numeric. -/
def badCapture : PyDict :=
  PyDict.ofList [("status", PyVal.str "abc"), ("body_bytes_sent", PyVal.str "1")]

/-- Fixture: a well-formed capture with status 304, arriving after the bad one. -/
def okCapture2 : PyDict :=
  PyDict.ofList [("status", PyVal.str "304"), ("body_bytes_sent", PyVal.str "2")]

/-- Fixture: the result of deriving `okCapture`. -/
def okDerived : PyDict :=
  PyDict.set (PyDict.set (PyDict.set (PyDict.set (PyDict.set (PyDict.set okCapture
    "status" (PyVal.int 200)) "status_type" (PyVal.int 2)) "bytes_sent" (PyVal.str "1"))
    "bytes_sent" (PyVal.int 1)) "request_time" (PyVal.rat 0)) "request_path" PyVal.none

/-- Decimal digit test. -/
def isDigitChar (c : Char) : Bool := '0' ≤ c && c ≤ '9'

/-- Value of a digit string. -/
def digitsToNat (l : List Char) : Nat :=
  l.foldl (fun a c => a * 10 + (c.toNat - '0'.toNat)) 0

/-- Python `str.strip()` of surrounding whitespace. -/
def pyStrip (l : List Char) : List Char :=
  ((l.dropWhile Char.isWhitespace).reverse.dropWhile Char.isWhitespace).reverse

/-- Model of Python `int(s)` on ASCII input: optional surrounding whitespace,
an optional sign, then a non-empty run of decimal digits; anything else
raises `ValueError` (underscore separators and non-ASCII digits are not
modelled; no claim depends on them). -/
def pyIntOfStr (s : String) : Option Int :=
  let core : List Char → Option Int := fun ds =>
    if !ds.isEmpty && ds.all isDigitChar then some ((digitsToNat ds : Int))
    else Option.none
  match pyStrip s.data with
  | '-' :: ds => (core ds).map (fun n => -n)
  | '+' :: ds => core ds
  | ds => core ds

/-- Python `s.split(sep)` for a one-character separator (empty pieces kept). -/
def splitOnCharList (sep : Char) : List Char → List (List Char)
  | [] => [[]]
  | c :: rest =>
    match splitOnCharList sep rest with
    | [] => [[c]]
    | h :: t => if c = sep then [] :: h :: t else (c :: h) :: t

/-- Split at the decimal points, used by the `float` model. -/
def splitOnDot (ds : List Char) : List (List Char) := splitOnCharList '.' ds

/-- Model of Python `float(s)` on plain decimal input: optional sign, digits
with an optional decimal point (`"1."` and `".5"` are accepted); exponent
notation, `inf` and `nan` are not modelled (no claim depends on them). -/
def pyFloatOfStr (s : String) : Option ℚ :=
  let core : List Char → Option ℚ := fun ds =>
    match splitOnDot ds with
    | [a] =>
      if !a.isEmpty && a.all isDigitChar then some ((digitsToNat a : ℚ))
      else Option.none
    | [a, b] =>
      if !(a.isEmpty && b.isEmpty) && a.all isDigitChar && b.all isDigitChar then
        some ((digitsToNat a : ℚ) + (digitsToNat b : ℚ) / ((10 : ℚ) ^ b.length))
      else Option.none
    | _ => Option.none
  match pyStrip s.data with
  | '-' :: ds => (core ds).map (fun q => -q)
  | '+' :: ds => core ds
  | ds => core ds

/-- Truncation toward zero, as Python `int(float)`. -/
def pyTrunc (q : ℚ) : Int :=
  if q < 0 then -(Int.floor (-q)) else Int.floor q

/-- Model of `to_int` (`ngxtop/ngxtop.py` lines 245-246):
`int(value) if value and value != '-' else 0`.  `None`, `''`, `'-'`, `0` and
`0.0` are falsy and give `0`; a non-numeric non-empty string raises
`ValueError`, which `map_field` does not catch. -/
def to_int : PyVal → Except PyErr PyVal
  | PyVal.none => .ok (PyVal.int 0)
  | PyVal.str s =>
    if s = "" ∨ s = "-" then .ok (PyVal.int 0)
    else
      match pyIntOfStr s with
      | some n => .ok (PyVal.int n)
      | Option.none => .error PyErr.valueError
  | PyVal.int n => .ok (PyVal.int n)
  | PyVal.rat q => if q = 0 then .ok (PyVal.int 0) else .ok (PyVal.int (pyTrunc q))

/-- Model of `to_float` (`ngxtop/ngxtop.py` lines 249-250):
`float(value) if value and value != '-' else 0.0`. -/
def to_float : PyVal → Except PyErr PyVal
  | PyVal.none => .ok (PyVal.rat 0)
  | PyVal.str s =>
    if s = "" ∨ s = "-" then .ok (PyVal.rat 0)
    else
      match pyFloatOfStr s with
      | some q => .ok (PyVal.rat q)
      | Option.none => .error PyErr.valueError
  | PyVal.int n => .ok (PyVal.rat (n : ℚ))
  | PyVal.rat q => if q = 0 then .ok (PyVal.rat 0) else .ok (PyVal.rat q)

/-- Model of `parse_status_type` (`ngxtop/ngxtop.py` lines 241-242):
`record['status'] // 100 if 'status' in record else None`.  Python `//` is
floor division; applying it to a string or `None` raises `TypeError`. -/
def parse_status_type (record : PyDict) : Except PyErr PyVal :=
  match record "status" with
  | Option.none => .ok PyVal.none
  | some (PyVal.int n) => .ok (PyVal.int (Int.fdiv n 100))
  | some (PyVal.rat q) => .ok (PyVal.rat ((Int.floor (q / 100) : Int) : ℚ))
  | some _ => .error PyErr.typeError

/-- Model of `urlparse(u).path` for the scheme-less URI references that occur
as nginx `$request_uri` / `$request` values: everything before the first
`?` (query) or `#` (fragment).  The full generality of `urlparse` (schemes,
network locations) is not modelled; no claim depends on the path value. -/
def urlparse_path (l : List Char) : List Char :=
  l.takeWhile (fun c => c != '?' && c != '#')

/-- Model of `parse_request_path` (`ngxtop/ngxtop.py` lines 231-238): take
`request_uri` if present, else the middle words of `request`, else `None`;
then `urlparse(uri).path if uri else None`.  Calling `.split` on `None` or a
number raises `AttributeError`; passing a truthy non-string to `urlparse`
raises `TypeError`. -/
def parse_request_path (record : PyDict) : Except PyErr PyVal :=
  match record "request_uri" with
  | some (PyVal.str u) =>
    if u = "" then .ok PyVal.none
    else .ok (PyVal.str (String.mk (urlparse_path u.data)))
  | some PyVal.none => .ok PyVal.none
  | some (PyVal.int n) => if n = 0 then .ok PyVal.none else .error PyErr.typeError
  | some (PyVal.rat q) => if q = 0 then .ok PyVal.none else .error PyErr.typeError
  | Option.none =>
    match record "request" with
    | some (PyVal.str s) =>
      let u := List.intercalate [' '] (((splitOnCharList ' ' s.data).drop 1).dropLast)
      if u = [] then .ok PyVal.none
      else .ok (PyVal.str (String.mk (urlparse_path u)))
    | some _ => .error PyErr.attributeError
    | Option.none => .ok PyVal.none

/-- One record through one `map_field` stage (`ngxtop/ngxtop.py` lines
201-208): `item[field] = func(item.get(field, None))`.  There is no
`try/except` in this function, so an exception raised by `func` escapes the
generator. -/
def map_field (field : String) (func : PyVal → Except PyErr PyVal) (item : PyDict) :
    Except PyErr PyDict :=
  match func (PyDict.get item field) with
  | .ok v => .ok (item.set field v)
  | .error e => .error e

/-- One record through one `add_field` stage (`ngxtop/ngxtop.py` lines
211-219): do nothing if the field is already present, else store
`func(item)`; an exception raised by `func` escapes the generator. -/
def add_field (field : String) (func : PyDict → Except PyErr PyVal) (item : PyDict) :
    Except PyErr PyDict :=
  match item field with
  | some _ => .ok item
  | Option.none =>
    match func item with
    | .ok v => .ok (item.set field v)
    | .error e => .error e

/-- The `lambda r: r['body_bytes_sent']` of `parse_log`; `r[k]` on a missing
key raises `KeyError`. -/
def get_body_bytes_sent (r : PyDict) : Except PyErr PyVal :=
  match r "body_bytes_sent" with
  | some v => .ok v
  | Option.none => .error (PyErr.keyError "body_bytes_sent")

/-- The per-record derivation pipeline of `parse_log` (`ngxtop/ngxtop.py`
lines 253-262), in source order: convert `status`, derive `status_type`,
alias `bytes_sent` from `body_bytes_sent`, convert `bytes_sent`, convert
`request_time`, derive `request_path`.  The stages are generator stages in
the source; on one record they compose sequentially, and an exception in any
stage aborts the whole chain. -/
def derive (r : PyDict) : Except PyErr PyDict := do
  let r1 ← map_field "status" to_int r
  let r2 ← add_field "status_type" parse_status_type r1
  let r3 ← add_field "bytes_sent" get_body_bytes_sent r2
  let r4 ← map_field "bytes_sent" to_int r3
  let r5 ← map_field "request_time" to_float r4
  let r6 ← add_field "request_path" parse_request_path r5
  return r6

/-- Streaming behaviour of the generator pipeline over a list of matched
records: records are derived in order; the first uncaught exception ends the
stream, so records before it have been emitted and records after it are
never produced. -/
def deriveAll : List PyDict → List PyDict × Option PyErr
  | [] => ([], Option.none)
  | r :: rs =>
    match derive r with
    | .error e => ([], some e)
    | .ok r' =>
      match deriveAll rs with
      | (tail, e) => (r' :: tail, e)

/-- Model of `m.groupdict()`: the capture list as a dict of strings. -/
def groupdict (caps : List (String × String)) : PyDict :=
  fun k =>
    match caps.find? (fun p => p.1 == k) with
    | some p => some (PyVal.str p.2)
    | Option.none => Option.none

/-- Does the key hold an `int` value? -/
def isIntVal : Option PyVal → Bool
  | some (PyVal.int _) => true
  | _ => false

/-- Does the key hold a `float` value? -/
def isRatVal : Option PyVal → Bool
  | some (PyVal.rat _) => true
  | _ => false

/-- `status // 100` read off a stored `status` value. -/
def statusTypeOf : Option PyVal → Option PyVal
  | some (PyVal.int n) => some (PyVal.int (Int.fdiv n 100))
  | _ => Option.none

/-- State of `SQLProcessor` from `ngxtop/ngxtop.py`: `begin` is `self.begin`
(`False` until the first `process` call, modelled as `Option.none`; Python's
truthiness also makes a numeric `0` falsy, which the report model honours),
and `rows` is the `log` table.  Timestamps are modelled at integer
granularity; the first component of each row is a ghost insert timestamp
used only to state the window invariant. -/
structure SQLProcessorNgx where
  begin : Option Int
  rows : List (Int × PyDict)

/-- Model of `SQLProcessor.process` (`ngxtop/ngxtop.py` lines 278-283):
sets `self.begin = time.time()` on every call, then inserts every record. -/
def SQLProcessorNgx.process (s : SQLProcessorNgx) (now : Int) (records : List PyDict) :
    SQLProcessorNgx :=
  { begin := some now, rows := s.rows ++ records.map (fun r => (now, r)) }

/-- The summary throughput `count / duration` computed by `report`. -/
def pyRate (count : Nat) (duration : Int) : ℚ :=
  (count : ℚ) / (duration : ℚ)

/-- Model of `SQLProcessor.report` (`ngxtop/ngxtop.py` lines 285-302): returns
`''` (here `Option.none`) while `self.begin` is falsy, else the summary
tuple (elapsed, count, `count / duration`).  The division is unguarded, so
elapsed time exactly `0` raises `ZeroDivisionError` before any output is
produced.  The per-query tabulation does not change state and is not
modelled; this report has no eviction. -/
def SQLProcessorNgx.report (s : SQLProcessorNgx) (now : Int) :
    Except PyErr (Option (Int × Nat × ℚ)) :=
  match s.begin with
  | Option.none => .ok Option.none
  | some t =>
    if t = 0 then .ok Option.none
    else
      let count := s.rows.length
      let duration := now - t
      if duration = 0 then .error PyErr.zeroDivisionError
      else .ok (some (duration, count, pyRate count duration))

/-- State of `SQLProcessor` from `ngxtop/sqlprocessor.py`: additionally holds
`self.second`, the window length in seconds (`int(arguments['--second'])`,
default 20). -/
structure SQLProcessorSql where
  begin : Option Int
  second : Int
  rows : List (Int × PyDict)

/-- Model of `SQLProcessor.process` (`ngxtop/sqlprocessor.py` lines 125-131):
identical to the ngxtop.py version; it never deletes rows. -/
def SQLProcessorSql.process (s : SQLProcessorSql) (now : Int) (records : List PyDict) :
    SQLProcessorSql :=
  { s with begin := some now, rows := s.rows ++ records.map (fun r => (now, r)) }

/-- Model of `SQLProcessor.report` (`ngxtop/sqlprocessor.py` lines 133-157).
After the summary (with the same unguarded division) and the query loop, the
`with closing(...)` block has already closed the cursor; when the eviction
condition `now - self.begin >= self.second` holds the code then runs
`cursor.execute("delete from log;")` on that closed cursor, which raises
`sqlite3.ProgrammingError` — so on the eviction path nothing is cleared,
`begin` is not reset, and the already-built report text is lost.  The two
`time.time()` samples inside one call are modelled as the same instant
`now`. -/
def SQLProcessorSql.report (s : SQLProcessorSql) (now : Int) :
    Except PyErr (Option (Int × Nat × ℚ) × SQLProcessorSql) :=
  match s.begin with
  | Option.none => .ok (Option.none, s)
  | some t =>
    if t = 0 then .ok (Option.none, s)
    else
      let count := s.rows.length
      let duration := now - t
      if duration = 0 then .error PyErr.zeroDivisionError
      else if now - t ≥ s.second then .error PyErr.programmingError
      else .ok (some (duration, count, pyRate count duration), s)

/-- Invariant claimed by the specification for the aggregation store: every
row currently held was inserted at or after the current window start. -/
def windowInvariant (s : SQLProcessorSql) : Bool :=
  match s.begin with
  | Option.none => true
  | some t => s.rows.all (fun p => t ≤ p.1)

/-- If every character of the first part satisfies `p`, `takeWhile` over an
append passes through the first part. -/
theorem takeWhile_append_all (p : Char → Bool) (v w : List Char)
    (h : ∀ a ∈ v, p a = true) :
    (v ++ w).takeWhile p = v ++ w.takeWhile p := by
  induction v with
  | nil => rfl
  | cons c cs ih =>
    have hc : p c = true := h c (List.mem_cons_self c cs)
    simp [List.takeWhile_cons, hc,
      ih (fun a ha => h a (List.mem_cons_of_mem c ha))]

/-- The no-adjacent-variables shape is preserved by dropping the head. -/
theorem noAdjGroups_tail {x : RItem} {rest : List RItem}
    (h : noAdjGroups (x :: rest) = true) : noAdjGroups rest = true := by
  cases rest with
  | nil => rfl
  | cons y t =>
    simp only [noAdjGroups, Bool.and_eq_true] at h
    exact h.2

/-- Shape of a successful `tryLens` run: some capture length `k' ≤ k` was
chosen, the continuation succeeded on the rest of the input, and the capture
is the prefix of that length. -/
theorem tryLens_shape (n : String) (cs : List Char)
    (f : List Char → Option (List (String × String) × List Char)) :
    ∀ (k : Nat) (gs : List (String × String)) (rem : List Char),
      tryLens n cs f k = some (gs, rem) →
      ∃ k' tail, k' ≤ k ∧ f (cs.drop k') = some (tail, rem) ∧
        gs = (n, String.mk (cs.take k')) :: tail := by
  intro k
  induction k with
  | zero =>
    intro gs rem h
    simp only [tryLens] at h
    split at h
    · rename_i p hp
      cases h
      exact ⟨0, p.1, Nat.le_refl 0, by rw [hp], rfl⟩
    · exact absurd h (by simp)
  | succ k ih =>
    intro gs rem h
    simp only [tryLens] at h
    split at h
    · rename_i p hp
      cases h
      exact ⟨k+1, p.1, Nat.le_refl _, by rw [hp], rfl⟩
    · obtain ⟨k', tail, hk, hf, hgs⟩ := ih _ _ h
      exact ⟨k', tail, Nat.le_succ_of_le hk, hf, hgs⟩

/-- A successful match consumes a prefix of the input that contains all the
literal characters of the pattern as a subsequence. -/
theorem matchItemsF_consumes :
    ∀ (fuel : Nat) (items : List RItem) (cs : List Char)
      (gs : List (String × String)) (rem : List Char),
      matchItemsF fuel items cs = some (gs, rem) →
      ∃ t, cs = t ++ rem ∧ List.Sublist (exactChars items) t := by
  intro fuel
  induction fuel with
  | zero =>
    intro items cs gs rem h
    cases items with
    | nil =>
      simp only [matchItemsF] at h
      cases h
      exact ⟨[], rfl, by simp [exactChars]⟩
    | cons x rest => exact absurd h (by simp [matchItemsF])
  | succ fuel ih =>
    intro items cs gs rem h
    cases items with
    | nil =>
      simp only [matchItemsF] at h
      cases h
      exact ⟨[], rfl, by simp [exactChars]⟩
    | cons x rest =>
      cases x with
      | exact c =>
        cases cs with
        | nil =>
          rw [show matchItemsF (fuel+1) (RItem.exact c :: rest) ([] : List Char) =
              Option.none from rfl] at h
          exact absurd h (by simp)
        | cons c' cs' =>
          rw [show matchItemsF (fuel+1) (RItem.exact c :: rest) (c' :: cs') =
              (if c' = c then matchItemsF fuel rest cs' else Option.none) from rfl] at h
          by_cases hc : c' = c
          · rw [if_pos hc] at h
            obtain ⟨t, ht, hs⟩ := ih rest cs' gs rem h
            subst hc
            refine ⟨c' :: t, by rw [ht]; rfl, ?_⟩
            show List.Sublist (exactChars (RItem.exact c' :: rest)) (c' :: t)
            exact hs.cons₂ c'
          · rw [if_neg hc] at h
            exact absurd h (by simp)
      | group n =>
        simp only [matchItemsF] at h
        obtain ⟨k', tail, _, hf, _⟩ := tryLens_shape n cs _ _ gs rem h
        obtain ⟨t, ht, hs⟩ := ih rest (cs.drop k') tail rem hf
        refine ⟨cs.take k' ++ t, ?_, ?_⟩
        · rw [List.append_assoc, ← ht, List.take_append_drop]
        · show List.Sublist (exactChars (RItem.group n :: rest)) (cs.take k' ++ t)
          have he : exactChars (RItem.group n :: rest) = exactChars rest := rfl
          rw [he]
          exact hs.trans (List.sublist_append_right (cs.take k') t)
      | dollar =>
        simp only [matchItemsF] at h
        split at h
        · obtain ⟨t, ht, hs⟩ := ih rest cs gs rem h
          refine ⟨t, ht, ?_⟩
          show List.Sublist (exactChars (RItem.dollar :: rest)) t
          exact hs
        · exact absurd h (by simp)
      | caret =>
        rw [show matchItemsF (fuel+1) (RItem.caret :: rest) cs = Option.none from rfl] at h
        exact absurd h (by simp)
      | backslash =>
        rw [show matchItemsF (fuel+1) (RItem.backslash :: rest) cs = Option.none from rfl] at h
        exact absurd h (by simp)

/-- In a rendered line whose substituted values avoid a character `c` (and
with no bare dollar, caret or backslash item), `c` occurs exactly as often
as in the literal text. -/
theorem count_renderChars (σ : String → String) (c : Char) :
    ∀ (items : List RItem),
      (∀ n ∈ groupNames items, c ∉ (σ n).data) →
      RItem.dollar ∉ items →
      RItem.caret ∉ items →
      RItem.backslash ∉ items →
      (renderChars σ items).count c = (exactChars items).count c := by
  intro items
  induction items with
  | nil => intro _ _ _ _; rfl
  | cons x rest ih =>
    intro hσ hd hcar hbsl
    have hdr : RItem.dollar ∉ rest := fun hm => hd (List.mem_cons_of_mem _ hm)
    have hcr : RItem.caret ∉ rest := fun hm => hcar (List.mem_cons_of_mem _ hm)
    have hbr : RItem.backslash ∉ rest := fun hm => hbsl (List.mem_cons_of_mem _ hm)
    cases x with
    | exact d =>
      have hσr : ∀ n ∈ groupNames rest, c ∉ (σ n).data := by
        intro n hn
        exact hσ n (by simpa [groupNames] using hn)
      have ihr := ih hσr hdr hcr hbr
      simp [renderChars, exactChars, List.count_cons, ihr]
    | group n =>
      have hσr : ∀ n' ∈ groupNames rest, c ∉ (σ n').data := by
        intro n' hn'
        refine hσ n' ?_
        simp [groupNames]
        exact Or.inr hn'
      have ihr := ih hσr hdr hcr hbr
      have h0 : (σ n).data.count c = 0 :=
        List.count_eq_zero.mpr (hσ n (by simp [groupNames]))
      simp [renderChars, exactChars, List.count_append, ihr, h0]
    | dollar => exact absurd (List.mem_cons_self _ _) hd
    | caret => exact absurd (List.mem_cons_self _ _) hcar
    | backslash => exact absurd (List.mem_cons_self _ _) hbsl

/-- Greediness of `tryLens`: if every capture length strictly greater than
`k0` makes the continuation fail and `k0` makes it succeed, the loop stops
exactly at `k0`. -/
theorem tryLens_greedy (n : String) (cs : List Char)
    (f : List Char → Option (List (String × String) × List Char)) :
    ∀ (m k0 : Nat) (gs : List (String × String)) (rem : List Char),
      k0 ≤ m →
      (∀ k, k0 < k → k ≤ m → f (cs.drop k) = Option.none) →
      f (cs.drop k0) = some (gs, rem) →
      tryLens n cs f m = some ((n, String.mk (cs.take k0)) :: gs, rem) := by
  intro m
  induction m with
  | zero =>
    intro k0 gs rem hle _ hf
    have h0 : k0 = 0 := Nat.le_zero.mp hle
    subst h0
    simp only [tryLens]
    rw [hf]
  | succ m ih =>
    intro k0 gs rem hle hnone hf
    by_cases hk : k0 = m + 1
    · subst hk
      simp only [tryLens]
      rw [hf]
    · have hk0 : k0 ≤ m := Nat.lt_succ_iff.mp (Nat.lt_of_le_of_ne hle hk)
      have hnm : f (cs.drop (m+1)) = Option.none :=
        hnone (m+1) (Nat.lt_succ_of_le hk0) (Nat.le_refl _)
      simp only [tryLens]
      rw [hnm]
      exact ih k0 gs rem hk0 (fun k h1 h2 => hnone k h1 (Nat.le_succ_of_le h2)) hf

/-- The empty pattern matches any input, consuming nothing. -/
theorem matchItemsF_nil (fuel : Nat) (cs : List Char) :
    matchItemsF fuel [] cs = some ([], cs) := by
  cases fuel <;> rfl

/-- Round-trip of the format compiler: matching a line rendered from a
template against the pattern compiled from that template recovers exactly
the substituted values, provided the template has no bare `$`, no two
adjacent variables, its literal characters are all in `D`, and every
substituted value contains neither a newline nor any character of `D`. -/
theorem matchItemsF_renderChars :
    ∀ (fuel : Nat) (items : List RItem) (σ : String → String) (D : List Char),
      items.length ≤ fuel →
      RItem.dollar ∉ items →
      RItem.caret ∉ items →
      RItem.backslash ∉ items →
      noAdjGroups items = true →
      (∀ c ∈ exactChars items, c ∈ D) →
      (∀ n ∈ groupNames items, '\n' ∉ (σ n).data ∧ ∀ c ∈ D, c ∉ (σ n).data) →
      matchItemsF fuel items (renderChars σ items) =
        some ((groupNames items).map (fun n => (n, σ n)), []) := by
  intro fuel
  induction fuel with
  | zero =>
    intro items σ D hlen _ _ _ _ _ _
    have h0 : items = [] := List.length_eq_zero.mp (Nat.le_zero.mp hlen)
    subst h0
    rfl
  | succ fuel ih =>
    intro items σ D hlen hdol hcar hbsl hadj hD hσ
    cases items with
    | nil => rfl
    | cons x rest =>
      have hdolr : RItem.dollar ∉ rest := fun hm => hdol (List.mem_cons_of_mem _ hm)
      have hcarr : RItem.caret ∉ rest := fun hm => hcar (List.mem_cons_of_mem _ hm)
      have hbslr : RItem.backslash ∉ rest := fun hm => hbsl (List.mem_cons_of_mem _ hm)
      have hadjr : noAdjGroups rest = true := noAdjGroups_tail hadj
      have hlenr : rest.length ≤ fuel := by
        simp only [List.length_cons] at hlen
        omega
      cases x with
      | dollar => exact absurd (List.mem_cons_self _ _) hdol
      | caret => exact absurd (List.mem_cons_self _ _) hcar
      | backslash => exact absurd (List.mem_cons_self _ _) hbsl
      | exact c =>
        have hDr : ∀ a ∈ exactChars rest, a ∈ D := by
          intro a ha
          refine hD a ?_
          simp only [exactChars, List.mem_cons]
          exact Or.inr ha
        have hσr : ∀ n ∈ groupNames rest, '\n' ∉ (σ n).data ∧ ∀ e ∈ D, e ∉ (σ n).data := by
          intro n hn
          exact hσ n (by simpa [groupNames] using hn)
        have ihr := ih rest σ D hlenr hdolr hcarr hbslr hadjr hDr hσr
        rw [show renderChars σ (RItem.exact c :: rest) = c :: renderChars σ rest from rfl]
        rw [show matchItemsF (fuel+1) (RItem.exact c :: rest) (c :: renderChars σ rest) =
            (if c = c then matchItemsF fuel rest (renderChars σ rest) else Option.none)
            from rfl]
        rw [if_pos rfl, ihr]
        rfl
      | group n =>
        obtain ⟨hnl, _⟩ := hσ n (by simp [groupNames])
        have hvp : ∀ a ∈ (σ n).data, (a != '\n') = true := by
          intro a ha
          simp only [bne_iff_ne, ne_eq]
          intro hEq
          exact hnl (hEq ▸ ha)
        cases rest with
        | nil =>
          rw [show renderChars σ [RItem.group n] = (σ n).data ++ [] from rfl]
          rw [List.append_nil]
          rw [show matchItemsF (fuel+1) [RItem.group n] (σ n).data =
              tryLens n (σ n).data (fun t => matchItemsF fuel [] t)
                (((σ n).data.takeWhile (fun c => c != '\n')).length) from rfl]
          rw [List.takeWhile_eq_self_iff.mpr hvp]
          have happ := tryLens_greedy n (σ n).data (fun t => matchItemsF fuel [] t)
            (σ n).data.length (σ n).data.length [] []
            (Nat.le_refl _)
            (fun k h1 h2 => absurd (Nat.lt_of_lt_of_le h1 h2) (Nat.lt_irrefl _))
            (by rw [List.drop_length]; exact matchItemsF_nil fuel [])
          rw [happ, List.take_length]
          rfl
        | cons y rest' =>
          cases y with
          | group n2 =>
            exfalso
            simp [noAdjGroups, isGroup] at hadj
          | dollar =>
            exact absurd (List.mem_cons_of_mem _ (List.mem_cons_self _ _)) hdol
          | caret =>
            exact absurd (List.mem_cons_of_mem _ (List.mem_cons_self _ _)) hcar
          | backslash =>
            exact absurd (List.mem_cons_of_mem _ (List.mem_cons_self _ _)) hbsl
          | exact d =>
            have hdin : d ∈ D := hD d (by simp [exactChars])
            have hdolr' : RItem.dollar ∉ rest' := fun hm =>
              hdolr (List.mem_cons_of_mem _ hm)
            have hcarr' : RItem.caret ∉ rest' := fun hm =>
              hcarr (List.mem_cons_of_mem _ hm)
            have hbslr' : RItem.backslash ∉ rest' := fun hm =>
              hbslr (List.mem_cons_of_mem _ hm)
            have hDr : ∀ a ∈ exactChars (RItem.exact d :: rest'), a ∈ D :=
              fun a ha => hD a ha
            have hσr : ∀ n' ∈ groupNames (RItem.exact d :: rest'),
                '\n' ∉ (σ n').data ∧ ∀ e ∈ D, e ∉ (σ n').data := by
              intro n' hn'
              refine hσ n' ?_
              simp only [groupNames, List.mem_cons]
              right
              simpa [groupNames] using hn'
            have hσd : ∀ n' ∈ groupNames rest', d ∉ (σ n').data := by
              intro n' hn'
              exact (hσr n' (by simpa [groupNames] using hn')).2 d hdin
            have hcount : (renderChars σ rest').count d = (exactChars rest').count d :=
              count_renderChars σ d rest' hσd hdolr' hcarr' hbslr'
            have hnone : ∀ k, (σ n).data.length < k →
                matchItemsF fuel (RItem.exact d :: rest')
                  (((σ n).data ++ renderChars σ (RItem.exact d :: rest')).drop k) =
                  Option.none := by
              intro k hk
              cases hr : matchItemsF fuel (RItem.exact d :: rest')
                  (((σ n).data ++ renderChars σ (RItem.exact d :: rest')).drop k) with
              | none => rfl
              | some pr =>
                exfalso
                obtain ⟨gs, rem⟩ := pr
                obtain ⟨t, ht, hsub⟩ := matchItemsF_consumes fuel _ _ gs rem hr
                have hd1 : (exactChars (RItem.exact d :: rest')).count d ≤ t.count d :=
                  hsub.count_le d
                have hd2 : (exactChars (RItem.exact d :: rest')).count d =
                    (exactChars rest').count d + 1 := by
                  simp [exactChars, List.count_cons]
                have hd3 : t.count d ≤
                    ((((σ n).data ++ renderChars σ (RItem.exact d :: rest')).drop k)).count d := by
                  rw [ht, List.count_append]
                  omega
                have hd4 : ((((σ n).data ++ renderChars σ (RItem.exact d :: rest')).drop k)).count d ≤
                    (renderChars σ rest').count d := by
                  have hk' : k = (σ n).data.length + (k - (σ n).data.length) := by omega
                  rw [hk', List.drop_append]
                  obtain ⟨j, hj⟩ : ∃ j, k - (σ n).data.length = j + 1 :=
                    ⟨k - (σ n).data.length - 1, by omega⟩
                  rw [hj]
                  rw [show (renderChars σ (RItem.exact d :: rest')).drop (j+1) =
                      (renderChars σ rest').drop j from rfl]
                  exact (List.drop_sublist _ _).count_le d
                omega
            have hm : (σ n).data.length ≤
                (((σ n).data ++ renderChars σ (RItem.exact d :: rest')).takeWhile
                  (fun c => c != '\n')).length := by
              rw [takeWhile_append_all _ _ _ hvp, List.length_append]
              omega
            have hf : matchItemsF fuel (RItem.exact d :: rest')
                (((σ n).data ++ renderChars σ (RItem.exact d :: rest')).drop
                  (σ n).data.length) =
                some ((groupNames (RItem.exact d :: rest')).map (fun n' => (n', σ n')), []) := by
              rw [List.drop_left]
              exact ih (RItem.exact d :: rest') σ D hlenr hdolr hcarr hbslr hadjr hDr hσr
            have happ := tryLens_greedy n
              ((σ n).data ++ renderChars σ (RItem.exact d :: rest'))
              (fun t => matchItemsF fuel (RItem.exact d :: rest') t)
              ((((σ n).data ++ renderChars σ (RItem.exact d :: rest')).takeWhile
                (fun c => c != '\n')).length)
              (σ n).data.length _ _ hm (fun k h1 _ => hnone k h1) hf
            rw [show renderChars σ (RItem.group n :: RItem.exact d :: rest') =
                (σ n).data ++ renderChars σ (RItem.exact d :: rest') from rfl]
            rw [show matchItemsF (fuel+1) (RItem.group n :: RItem.exact d :: rest')
                ((σ n).data ++ renderChars σ (RItem.exact d :: rest')) =
                tryLens n ((σ n).data ++ renderChars σ (RItem.exact d :: rest'))
                  (fun t => matchItemsF fuel (RItem.exact d :: rest') t)
                  ((((σ n).data ++ renderChars σ (RItem.exact d :: rest')).takeWhile
                    (fun c => c != '\n')).length) from rfl]
            rw [happ, List.take_left]
            rfl

/-- Reading a field just written. -/
theorem PyDict.set_get (r : PyDict) (f : String) (v : PyVal) :
    (r.set f v) f = some v := by
  simp [PyDict.set]

/-- Writing one field does not change another. -/
theorem PyDict.set_ne (r : PyDict) (f : String) (v : PyVal) (k : String) (h : k ≠ f) :
    (r.set f v) k = r k := by
  simp [PyDict.set, h]

/-- Writing back the value a field already holds changes nothing. -/
theorem PyDict.set_self (r : PyDict) (f : String) (v : PyVal) (h : r f = some v) :
    r.set f v = r := by
  funext k
  by_cases hk : k = f
  · subst hk; simp [PyDict.set, h]
  · simp [PyDict.set, hk]

/-- A successful `Except` bind decomposes into two successful steps. -/
theorem except_bind_ok {α β : Type} (x : Except PyErr α) (g : α → Except PyErr β) (b : β)
    (h : (x >>= g) = .ok b) : ∃ a, x = .ok a ∧ g a = .ok b := by
  cases x with
  | ok a => exact ⟨a, rfl, h⟩
  | error e => exact absurd h (by simp [Bind.bind, Except.bind])

/-- A successful `to_int` always yields an `int`. -/
theorem to_int_ok (v w : PyVal) (h : to_int v = .ok w) : ∃ n : Int, w = PyVal.int n := by
  cases v with
  | none => cases h; exact ⟨0, rfl⟩
  | str s =>
    simp only [to_int] at h
    split at h
    · cases h; exact ⟨0, rfl⟩
    · split at h
      · rename_i n _; cases h; exact ⟨n, rfl⟩
      · exact absurd h (by simp)
  | int n => cases h; exact ⟨n, rfl⟩
  | rat q =>
    simp only [to_int] at h
    split at h
    · cases h; exact ⟨0, rfl⟩
    · cases h; exact ⟨pyTrunc q, rfl⟩

/-- A successful `to_float` always yields a `float`. -/
theorem to_float_ok (v w : PyVal) (h : to_float v = .ok w) : ∃ q : ℚ, w = PyVal.rat q := by
  cases v with
  | none => cases h; exact ⟨0, rfl⟩
  | str s =>
    simp only [to_float] at h
    split at h
    · cases h; exact ⟨0, rfl⟩
    · split at h
      · rename_i q _; cases h; exact ⟨q, rfl⟩
      · exact absurd h (by simp)
  | int n => cases h; exact ⟨(n : ℚ), rfl⟩
  | rat q =>
    simp only [to_float] at h
    split at h
    · cases h; exact ⟨0, rfl⟩
    · cases h; exact ⟨q, rfl⟩

/-- Shape of a successful `map_field` stage. -/
theorem map_field_ok (f : String) (conv : PyVal → Except PyErr PyVal) (r r' : PyDict)
    (h : map_field f conv r = .ok r') :
    ∃ v, conv (PyDict.get r f) = .ok v ∧ r' = r.set f v := by
  simp only [map_field] at h
  split at h
  · rename_i v hv; cases h; exact ⟨v, hv, rfl⟩
  · exact absurd h (by simp)

/-- Shape of a successful `add_field` stage. -/
theorem add_field_ok (f : String) (g : PyDict → Except PyErr PyVal) (r r' : PyDict)
    (h : add_field f g r = .ok r') :
    (∃ w, r f = some w ∧ r' = r) ∨
    (r f = Option.none ∧ ∃ v, g r = .ok v ∧ r' = r.set f v) := by
  simp only [add_field] at h
  split at h
  · rename_i w hw; cases h; exact Or.inl ⟨w, hw, rfl⟩
  · rename_i hw
    split at h
    · rename_i v hv; cases h; exact Or.inr ⟨hw, v, hv, rfl⟩
    · exact absurd h (by simp)

/-- A `map_field` stage with `to_int` leaves a record unchanged when the field
already holds an `int` (second-run stability). -/
theorem map_field_int_fixed (f : String) (r : PyDict) (n : Int)
    (h : r f = some (PyVal.int n)) : map_field f to_int r = .ok r := by
  have hg : PyDict.get r f = PyVal.int n := by simp [PyDict.get, h]
  have ht : to_int (PyDict.get r f) = .ok (PyVal.int n) := by rw [hg]; rfl
  simp only [map_field, ht]
  rw [PyDict.set_self r f (PyVal.int n) h]

/-- A `map_field` stage with `to_float` leaves a record unchanged when the
field already holds a `float` (second-run stability). -/
theorem map_field_rat_fixed (f : String) (r : PyDict) (q : ℚ)
    (h : r f = some (PyVal.rat q)) : map_field f to_float r = .ok r := by
  have hg : PyDict.get r f = PyVal.rat q := by simp [PyDict.get, h]
  have ht : to_float (PyDict.get r f) = .ok (PyVal.rat q) := by
    rw [hg]
    simp only [to_float]
    split
    · rename_i h0; rw [h0]
    · rfl
  simp only [map_field, ht]
  rw [PyDict.set_self r f (PyVal.rat q) h]

/-- An `add_field` stage skips a record whose field is already present. -/
theorem add_field_present (f : String) (g : PyDict → Except PyErr PyVal) (r : PyDict)
    (w : PyVal) (h : r f = some w) : add_field f g r = .ok r := by
  simp only [add_field, h]

/-- Forward characterisation of a successful run of the derivation pipeline:
all five derived fields are present in the output with their documented
types; the documented default values hold whenever the corresponding field
was not itself part of the input capture; every other field is untouched. -/
theorem derive_fields (r rd : PyDict) (h : derive r = .ok rd) :
    (∃ n : Int, rd "status" = some (PyVal.int n)) ∧
    (r "status" = Option.none → rd "status" = some (PyVal.int 0)) ∧
    (rd "status_type").isSome = true ∧
    (r "status_type" = Option.none → rd "status_type" = statusTypeOf (rd "status")) ∧
    (∃ m : Int, rd "bytes_sent" = some (PyVal.int m)) ∧
    (∃ q : ℚ, rd "request_time" = some (PyVal.rat q)) ∧
    (r "request_time" = Option.none → rd "request_time" = some (PyVal.rat 0)) ∧
    (rd "request_path").isSome = true ∧
    (r "request_path" = Option.none → r "request_uri" = Option.none →
      r "request" = Option.none → rd "request_path" = some PyVal.none) ∧
    (∀ g, g ≠ "status" → g ≠ "status_type" → g ≠ "bytes_sent" → g ≠ "request_time" →
      g ≠ "request_path" → rd g = r g) := by
  unfold derive at h
  obtain ⟨r1, h1, h⟩ := except_bind_ok _ _ _ h
  obtain ⟨r2, h2, h⟩ := except_bind_ok _ _ _ h
  obtain ⟨r3, h3, h⟩ := except_bind_ok _ _ _ h
  obtain ⟨r4, h4, h⟩ := except_bind_ok _ _ _ h
  obtain ⟨r5, h5, h⟩ := except_bind_ok _ _ _ h
  obtain ⟨r6, h6, h⟩ := except_bind_ok _ _ _ h
  have hr6 : r6 = rd := by simpa [pure, Except.pure] using h
  subst hr6
  obtain ⟨v1, hv1, e1⟩ := map_field_ok _ _ _ _ h1
  obtain ⟨n1, hn1⟩ := to_int_ok _ _ hv1
  subst hn1
  have hst1 : r1 "status" = some (PyVal.int n1) := by
    rw [e1]; exact PyDict.set_get _ _ _
  -- stage 2 (add status_type)
  have f2 : ∀ g, g ≠ "status_type" → r2 g = r1 g := by
    rcases add_field_ok _ _ _ _ h2 with ⟨w2, hw2, e2⟩ | ⟨hw2, v2, hv2, e2⟩
    · subst e2; intro g _; rfl
    · subst e2; intro g hg; exact PyDict.set_ne _ _ _ _ hg
  have p2 : (r2 "status_type").isSome = true := by
    rcases add_field_ok _ _ _ _ h2 with ⟨w2, hw2, e2⟩ | ⟨hw2, v2, hv2, e2⟩
    · subst e2; rw [hw2]; rfl
    · subst e2; rw [PyDict.set_get]; rfl
  have c2 : ∀ w, r1 "status_type" = Option.none →
      parse_status_type r1 = .ok w → r2 "status_type" = some w := by
    intro w hnone hpw
    rcases add_field_ok _ _ _ _ h2 with ⟨w2, hw2, e2⟩ | ⟨hw2, v2, hv2, e2⟩
    · rw [hw2] at hnone; exact absurd hnone (by simp)
    · subst e2
      have hwv := hpw.symm.trans hv2
      cases hwv
      exact PyDict.set_get _ _ _
  -- stage 3 (alias bytes_sent)
  have f3 : ∀ g, g ≠ "bytes_sent" → r3 g = r2 g := by
    rcases add_field_ok _ _ _ _ h3 with ⟨w3, hw3, e3⟩ | ⟨hw3, v3, hv3, e3⟩
    · subst e3; intro g _; rfl
    · subst e3; intro g hg; exact PyDict.set_ne _ _ _ _ hg
  -- stage 4 (convert bytes_sent)
  obtain ⟨v4, hv4, e4⟩ := map_field_ok _ _ _ _ h4
  obtain ⟨m4, hm4⟩ := to_int_ok _ _ hv4
  subst hm4
  -- stage 5 (convert request_time)
  obtain ⟨v5, hv5, e5⟩ := map_field_ok _ _ _ _ h5
  obtain ⟨q5, hq5⟩ := to_float_ok _ _ hv5
  subst hq5
  -- stage 6 (add request_path)
  have f6 : ∀ g, g ≠ "request_path" → r6 g = r5 g := by
    rcases add_field_ok _ _ _ _ h6 with ⟨w6, hw6, e6⟩ | ⟨hw6, v6, hv6, e6⟩
    · subst e6; intro g _; rfl
    · subst e6; intro g hg; exact PyDict.set_ne _ _ _ _ hg
  have p6 : (r6 "request_path").isSome = true := by
    rcases add_field_ok _ _ _ _ h6 with ⟨w6, hw6, e6⟩ | ⟨hw6, v6, hv6, e6⟩
    · subst e6; rw [hw6]; rfl
    · subst e6; rw [PyDict.set_get]; rfl
  have c6 : ∀ w, r5 "request_path" = Option.none →
      parse_request_path r5 = .ok w → r6 "request_path" = some w := by
    intro w hnone hpw
    rcases add_field_ok _ _ _ _ h6 with ⟨w6, hw6, e6⟩ | ⟨hw6, v6, hv6, e6⟩
    · rw [hw6] at hnone; exact absurd hnone (by simp)
    · subst e6
      have hwv := hpw.symm.trans hv6
      cases hwv
      exact PyDict.set_get _ _ _
  -- chases down the stages
  have hstat : r6 "status" = some (PyVal.int n1) := by
    rw [f6 _ (by decide), e5, PyDict.set_ne _ _ _ _ (by decide), e4,
      PyDict.set_ne _ _ _ _ (by decide), f3 _ (by decide), f2 _ (by decide)]
    exact hst1
  have hstt : r6 "status_type" = r2 "status_type" := by
    rw [f6 _ (by decide), e5, PyDict.set_ne _ _ _ _ (by decide), e4,
      PyDict.set_ne _ _ _ _ (by decide), f3 _ (by decide)]
  have hbs : r6 "bytes_sent" = some (PyVal.int m4) := by
    rw [f6 _ (by decide), e5, PyDict.set_ne _ _ _ _ (by decide), e4]
    exact PyDict.set_get _ _ _
  have hrt : r6 "request_time" = some (PyVal.rat q5) := by
    rw [f6 _ (by decide), e5]
    exact PyDict.set_get _ _ _
  refine ⟨⟨n1, hstat⟩, ?_, ?_, ?_, ⟨m4, hbs⟩, ⟨q5, hrt⟩, ?_, p6, ?_, ?_⟩
  · -- status defaults to 0 when not captured
    intro h0
    have hg : PyDict.get r "status" = PyVal.none := by simp [PyDict.get, h0]
    rw [hg] at hv1
    have h00 : (Except.ok (PyVal.int 0) : Except PyErr PyVal) = .ok (PyVal.int n1) := hv1
    cases h00
    exact hstat
  · -- status_type present
    rw [hstt]; exact p2
  · -- status_type is status // 100 when not captured
    intro h0
    have h1none : r1 "status_type" = Option.none := by
      rw [e1, PyDict.set_ne _ _ _ _ (by decide)]; exact h0
    have hps : parse_status_type r1 = .ok (PyVal.int (Int.fdiv n1 100)) := by
      simp only [parse_status_type, hst1]
    rw [hstt, c2 _ h1none hps, hstat]
    rfl
  · -- request_time defaults to 0.0 when not captured
    intro h0
    have h4rt : r4 "request_time" = Option.none := by
      rw [e4, PyDict.set_ne _ _ _ _ (by decide), f3 _ (by decide), f2 _ (by decide),
        e1, PyDict.set_ne _ _ _ _ (by decide)]
      exact h0
    have hg : PyDict.get r4 "request_time" = PyVal.none := by simp [PyDict.get, h4rt]
    rw [hg] at hv5
    have h00 : (Except.ok (PyVal.rat 0) : Except PyErr PyVal) = .ok (PyVal.rat q5) := hv5
    cases h00
    exact hrt
  · -- request_path is None when no source field exists
    intro h0 h0u h0r
    have h5p : r5 "request_path" = Option.none := by
      rw [e5, PyDict.set_ne _ _ _ _ (by decide), e4, PyDict.set_ne _ _ _ _ (by decide),
        f3 _ (by decide), f2 _ (by decide), e1, PyDict.set_ne _ _ _ _ (by decide)]
      exact h0
    have h5u : r5 "request_uri" = Option.none := by
      rw [e5, PyDict.set_ne _ _ _ _ (by decide), e4, PyDict.set_ne _ _ _ _ (by decide),
        f3 _ (by decide), f2 _ (by decide), e1, PyDict.set_ne _ _ _ _ (by decide)]
      exact h0u
    have h5r : r5 "request" = Option.none := by
      rw [e5, PyDict.set_ne _ _ _ _ (by decide), e4, PyDict.set_ne _ _ _ _ (by decide),
        f3 _ (by decide), f2 _ (by decide), e1, PyDict.set_ne _ _ _ _ (by decide)]
      exact h0r
    have hpp : parse_request_path r5 = .ok PyVal.none := by
      simp only [parse_request_path, h5u, h5r]
    exact c6 _ h5p hpp
  · -- frame: every other field is untouched
    intro g hg1 hg2 hg3 hg4 hg5
    rw [f6 _ hg5, e5, PyDict.set_ne _ _ _ _ hg4, e4, PyDict.set_ne _ _ _ _ hg3,
      f3 _ hg3, f2 _ hg2, e1, PyDict.set_ne _ _ _ _ hg1]

/-- Binding a successful `Except` computation just applies the continuation. -/
theorem except_ok_bind {α β : Type} (a : α) (g : α → Except PyErr β) :
    ((Except.ok a : Except PyErr α) >>= g) = g a := rfl

/-- The Boolean duplicate check agrees with `List.Nodup`. -/
theorem noDupNames_iff (l : List String) : noDupNames l = true ↔ l.Nodup := by
  induction l with
  | nil => simp [noDupNames]
  | cons x xs ih =>
    simp [noDupNames, List.nodup_cons, ih, List.elem_iff]

/-- C1: counterexample to the claim as stated.  `"$a$"` is a valid
FormatTemplate (its literal segment is the single character `$`) and
`build_pattern` compiles it; but because the code's escape set does not
include `$`, the trailing `$` stays an end anchor, and matching the line
rendered with the delimiter-free value `"z"` for `a` captures `"z$"`
instead of the substituted `"z"`. -/
theorem C1_counterexample :
    build_pattern "$a$" = some [RItem.group "a", RItem.dollar] ∧
    renderChars (fun _ => "z") [RItem.group "a", RItem.dollar] = "z$".data ∧
    matchItems [RItem.group "a", RItem.dollar] "z$".data = some ([("a", "z$")], []) ∧
    ("z$" : String) ≠ "z" :=
  ⟨by decide, by decide, by decide, by decide⟩

/-- A pattern that `build_pattern` actually returned contains no backslash
item: `compileOk` rejects patterns with one (the backslash keeps its regex
escape meaning and is outside the modelled fragment). -/
theorem build_pattern_ok_backslashFree (fmt : String) (items : List RItem)
    (h : build_pattern fmt = some items) : RItem.backslash ∉ items := by
  have key : ∀ (its : List RItem),
      (if compileOk its then some its else Option.none) = some items →
      RItem.backslash ∉ items := by
    intro its hits
    split at hits
    · rename_i hok
      cases hits
      intro hmem
      simp only [compileOk, Bool.and_eq_true] at hok
      have hb := hok.2
      rw [backslashFree, List.all_eq_true] at hb
      have hx := hb _ hmem
      simp at hx
    · exact absurd hits (by simp)
  exact key (scanFormat isNameCharNgx
    (if fmt = "combined" then LOG_FORMAT_COMBINED else fmt)) h

/-- C1 (amended): for every template that `build_pattern` compiles and whose
literal segments contain no regex metacharacter outside the escaped set
`. * + ? | ( ) { } [ ]` — no bare `$`, no caret (both stated as
hypotheses), and no backslash (already impossible in a successfully
compiled pattern, derived here from the compilation hypothesis) — and with
no two adjacent variables, matching the line rendered by substituting
values that contain no newline and no literal-segment character yields a
match that consumes the whole line and whose named captures are exactly the
substituted values. -/
theorem C1_roundtrip (fmt : String) (items : List RItem) (σ : String → String)
    (hc : build_pattern fmt = some items)
    (hdol : RItem.dollar ∉ items)
    (hcar : RItem.caret ∉ items)
    (hadj : noAdjGroups items = true)
    (hv : ∀ n ∈ groupNames items,
      '\n' ∉ (σ n).data ∧ ∀ c ∈ exactChars items, c ∉ (σ n).data) :
    matchItems items (renderChars σ items) =
      some ((groupNames items).map (fun n => (n, σ n)), []) :=
  matchItemsF_renderChars items.length items σ (exactChars items) (Nat.le_refl _)
    hdol hcar (build_pattern_ok_backslashFree fmt items hc) hadj (fun _ hc' => hc') hv

/-- Witness for C1_roundtrip: template `"$a-$b"` with values `a ↦ "x"`,
`b ↦ "yy"` round-trips exactly. -/
theorem C1_roundtrip_witness :
    matchItems [RItem.group "a", RItem.exact '-', RItem.group "b"]
      (renderChars (fun n => if n = "a" then "x" else "yy")
        [RItem.group "a", RItem.exact '-', RItem.group "b"]) =
      some ([("a", "x"), ("b", "yy")], []) :=
  C1_roundtrip "$a-$b" [RItem.group "a", RItem.exact '-', RItem.group "b"]
    (fun n => if n = "a" then "x" else "yy")
    (by decide) (by decide) (by decide) (by decide) (by decide)

/-- C2: code bug.  With the default 20-second window, a record processed at
t = 1 and a report at t = 21 (window boundary reached) make
`SQLProcessor.report` of `sqlprocessor.py` raise `sqlite3.ProgrammingError`:
the `delete from log;` statement is executed on the cursor that the
`with closing(...)` block has already closed.  The row set is therefore not
cleared, `begin` is not reset, and the already-built report text is lost. -/
theorem C2_eviction_crashes :
    SQLProcessorSql.report
      (SQLProcessorSql.process ⟨Option.none, 20, []⟩ 1 [emptyRecord]) 21 =
      .error PyErr.programmingError := rfl

/-- C3: code bug.  `map_field` in `ngxtop.py` has no `try/except`, so the
`ValueError` raised by `int('abc')` propagates out of the generator
pipeline: the record before the failing one has been emitted, the failing
record is not skipped but aborts the stream, and the well-formed record
after it is never processed.  (The copy of `map_field` in
`tests/test_config_parser.py` has the `try/except ValueError` that drops
the record, matching the specified behaviour.) -/
theorem C3_conversion_error_halts_pipeline :
    deriveAll [okCapture, badCapture, okCapture2] =
      ([okDerived], some PyErr.valueError) := rfl

/-- C4: counterexample to the claimed invariant.  `process` sets `begin` to
the current time on every call without evicting rows, so after processing a
record at t = 1 and another at t = 5, the row inserted at t = 1 predates
the new window start: the invariant holds after the first call and is
broken by the second. -/
theorem C4_counterexample :
    windowInvariant (SQLProcessorSql.process ⟨Option.none, 20, []⟩ 1 [emptyRecord]) = true ∧
    windowInvariant
      (SQLProcessorSql.process
        (SQLProcessorSql.process ⟨Option.none, 20, []⟩ 1 [emptyRecord]) 5 [emptyRecord]) =
      false :=
  ⟨by decide, by decide⟩

/-- C4 (amended): the invariant holds after a `process` call on a store that
holds no rows — in particular after the single streaming `process` call that
`ngxtop` makes per run — and a successful `report` returns the store
unchanged (on the eviction path it raises instead, also changing nothing),
so reporting preserves the invariant. -/
theorem C4_amended :
    (∀ (s : SQLProcessorSql) (now : Int) (records : List PyDict), s.rows = [] →
      windowInvariant (s.process now records) = true) ∧
    (∀ (s : SQLProcessorSql) (now : Int) (out : Option (Int × Nat × ℚ) × SQLProcessorSql),
      s.report now = .ok out → out.2 = s) := by
  constructor
  · intro s now records hrows
    obtain ⟨b, sec, rows⟩ := s
    simp only at hrows
    subst hrows
    simp only [SQLProcessorSql.process, windowInvariant, List.nil_append, List.all_eq_true]
    intro p hp
    obtain ⟨x, _, hx⟩ := List.mem_map.mp hp
    rw [← hx]
    simp
  · intro s now out h
    simp only [SQLProcessorSql.report] at h
    split at h
    · cases h; rfl
    · split at h
      · cases h; rfl
      · split at h
        · exact absurd h (by simp)
        · split at h
          · exact absurd h (by simp)
          · cases h; rfl

/-- Witness for C4_amended: a first `process` call at t = 7 satisfies the
invariant, and a successful report at t = 11 on a one-row store returns the
store unchanged. -/
theorem C4_amended_witness :
    windowInvariant (SQLProcessorSql.process ⟨some 3, 20, []⟩ 7 [emptyRecord]) = true ∧
    ((some (10, 1, pyRate 1 10), (⟨some 1, 20, [(1, emptyRecord)]⟩ : SQLProcessorSql)) :
        Option (Int × Nat × ℚ) × SQLProcessorSql).2 =
      (⟨some 1, 20, [(1, emptyRecord)]⟩ : SQLProcessorSql) :=
  ⟨C4_amended.1 ⟨some 3, 20, []⟩ 7 [emptyRecord] rfl,
   C4_amended.2 ⟨some 1, 20, [(1, emptyRecord)]⟩ 11
     (some (10, 1, pyRate 1 10), ⟨some 1, 20, [(1, emptyRecord)]⟩) rfl⟩

/-- C5: code bug.  The compiled template `"$remote_addr $status"` matches the
line `"10.0.0.1 404"` with captures remote_addr = "10.0.0.1" and
status = "404", but the derivation pipeline then raises
`KeyError: 'body_bytes_sent'` in the `bytes_sent` aliasing stage (the
template has no `$body_bytes_sent`), so no record is emitted at all — in
particular not the claimed `{remote_addr, status: 404, status_type: 4}`. -/
theorem C5_scenario_raises_keyerror :
    build_pattern "$remote_addr $status" =
      some [RItem.group "remote_addr", RItem.exact ' ', RItem.group "status"] ∧
    matchItems [RItem.group "remote_addr", RItem.exact ' ', RItem.group "status"]
      "10.0.0.1 404".data = some ([("remote_addr", "10.0.0.1"), ("status", "404")], []) ∧
    derive (groupdict [("remote_addr", "10.0.0.1"), ("status", "404")]) =
      .error (PyErr.keyError "body_bytes_sent") :=
  ⟨by decide, by decide, rfl⟩

/-- C6: record derivation is idempotent on its own output.  A successful run
leaves every derived field present with an `int`/`float` value where a
conversion applies; on a second run every `add_field` stage skips its
already-present field and every `map_field` conversion fixes the value, so
the record is returned unchanged. -/
theorem C6_derive_idempotent (r r' : PyDict) (h : derive r = .ok r') :
    derive r' = .ok r' := by
  obtain ⟨⟨n, hn⟩, _, p2, _, ⟨m, hm⟩, ⟨q, hq⟩, _, p6, _, _⟩ := derive_fields r r' h
  have hstt : ∃ w, r' "status_type" = some w := by
    cases h2 : r' "status_type" with
    | none => rw [h2] at p2; exact absurd p2 (by simp)
    | some w => exact ⟨w, rfl⟩
  have hpp : ∃ w, r' "request_path" = some w := by
    cases h6 : r' "request_path" with
    | none => rw [h6] at p6; exact absurd p6 (by simp)
    | some w => exact ⟨w, rfl⟩
  obtain ⟨w2, hw2⟩ := hstt
  obtain ⟨w6, hw6⟩ := hpp
  have s1 : map_field "status" to_int r' = .ok r' := map_field_int_fixed _ _ _ hn
  have s2 : add_field "status_type" parse_status_type r' = .ok r' :=
    add_field_present _ _ _ _ hw2
  have s3 : add_field "bytes_sent" get_body_bytes_sent r' = .ok r' :=
    add_field_present _ _ _ _ hm
  have s4 : map_field "bytes_sent" to_int r' = .ok r' := map_field_int_fixed _ _ _ hm
  have s5 : map_field "request_time" to_float r' = .ok r' := map_field_rat_fixed _ _ _ hq
  have s6 : add_field "request_path" parse_request_path r' = .ok r' :=
    add_field_present _ _ _ _ hw6
  unfold derive
  simp only [s1, except_ok_bind, s2, s3, s4, s5, s6]
  rfl

/-- Witness for C6_derive_idempotent: deriving the already-derived record of
`sampleCapture` changes nothing. -/
theorem C6_derive_idempotent_witness : derive sampleDerived = .ok sampleDerived :=
  C6_derive_idempotent sampleCapture sampleDerived rfl

/-- C7: counterexample to the claim that the throughput computation is
guarded.  After an insert at t = 1, a report at the same instant (elapsed
time exactly 0) raises `ZeroDivisionError` from the unguarded
`count / duration` in `ngxtop.py`'s `SQLProcessor.report`. -/
theorem C7_counterexample :
    SQLProcessorNgx.report (SQLProcessorNgx.process ⟨Option.none, []⟩ 1 [emptyRecord]) 1 =
      .error PyErr.zeroDivisionError := rfl

/-- C7 (amended): the throughput figure is `count / elapsed` and is not
guarded; the only division-error case is elapsed exactly 0.  Whenever the
elapsed time is non-zero, `ngxtop.py`'s report succeeds and its summary is
`(elapsed, count, count / elapsed)`, and `sqlprocessor.py`'s report never
raises `ZeroDivisionError` (on the eviction path it raises
`ProgrammingError` instead). -/
theorem C7_amended (s : SQLProcessorNgx) (s2 : SQLProcessorSql) (t t2 now now2 : Int)
    (hb : s.begin = some t) (ht : t ≠ 0) (hd : now - t ≠ 0)
    (hb2 : s2.begin = some t2) (ht2 : t2 ≠ 0) (hd2 : now2 - t2 ≠ 0) :
    s.report now = .ok (some (now - t, s.rows.length, pyRate s.rows.length (now - t))) ∧
    s2.report now2 ≠ .error PyErr.zeroDivisionError := by
  constructor
  · simp only [SQLProcessorNgx.report, hb]
    rw [if_neg ht, if_neg hd]
  · simp only [SQLProcessorSql.report, hb2]
    rw [if_neg ht2, if_neg hd2]
    split
    · simp
    · simp

/-- Witness for C7_amended: with begin = 1 and reports at t = 3, the ngxtop
report returns the summary `(2, 1, 1/2 req/sec)` and the sqlprocessor
report does not raise a division error. -/
theorem C7_amended_witness :
    SQLProcessorNgx.report ⟨some 1, [(1, emptyRecord)]⟩ 3 =
      .ok (some (3 - 1, [((1 : Int), emptyRecord)].length,
        pyRate [((1 : Int), emptyRecord)].length (3 - 1))) ∧
    SQLProcessorSql.report ⟨some 1, 20, [(1, emptyRecord)]⟩ 3 ≠
      .error PyErr.zeroDivisionError :=
  C7_amended ⟨some 1, [(1, emptyRecord)]⟩ ⟨some 1, 20, [(1, emptyRecord)]⟩ 1 1 3 3
    rfl (by decide) (by decide) rfl (by decide) (by decide)

/-- C8: counterexample.  `build_pattern` in `ngxtop.py` has no case for the
token `"common"`: it compiles the five literal characters of the word
`common` instead of the built-in common template, so the returned matcher
differs from the one compiled from that template. -/
theorem C8_counterexample :
    build_pattern "common" ≠ build_pattern LOG_FORMAT_COMMON := by decide

/-- C8 (amended): `config_parser.build_pattern` substitutes both built-in
names before pattern assembly; `ngxtop.build_pattern` substitutes only
`"combined"` and treats `"common"` as a plain template with no variables. -/
theorem C8_amended :
    config_build_pattern "combined" = config_build_pattern LOG_FORMAT_COMBINED ∧
    config_build_pattern "common" = config_build_pattern LOG_FORMAT_COMMON ∧
    build_pattern "combined" = build_pattern LOG_FORMAT_COMBINED ∧
    build_pattern "common" =
      some [RItem.exact 'c', RItem.exact 'o', RItem.exact 'm', RItem.exact 'm',
        RItem.exact 'o', RItem.exact 'n'] :=
  ⟨by decide, by decide, by decide, by decide⟩

/-- C9: counterexample.  The compiler can fail: `"$0"` produces the group
`(?P<0>.*)` whose name is not a valid identifier, and `"$a $a"` redefines
the group name `a`; in both cases `re.compile` raises `re.error` instead of
returning a matcher. -/
theorem C9_counterexample :
    build_pattern "$0" = Option.none ∧ build_pattern "$a $a" = Option.none :=
  ⟨rfl, rfl⟩

/-- C9 (amended): `build_pattern` returns a compiled matcher whenever the
scanned template's variable names are pairwise distinct, none starts with a
digit, and the template's literal segments contain no backslash (the code
leaves a backslash unescaped, so it forms a regex escape; a trailing
backslash always makes `re.compile` raise, and the other escape forms are
outside this model); the matcher is then the scanned item list itself. -/
theorem C9_amended (fmt : String)
    (hnodup : (groupNames (scanFormat isNameCharNgx
      (if fmt = "combined" then LOG_FORMAT_COMBINED else fmt))).Nodup)
    (hvalid : ∀ n ∈ groupNames (scanFormat isNameCharNgx
      (if fmt = "combined" then LOG_FORMAT_COMBINED else fmt)), validGroupName n = true)
    (hbsl : RItem.backslash ∉ scanFormat isNameCharNgx
      (if fmt = "combined" then LOG_FORMAT_COMBINED else fmt)) :
    build_pattern fmt =
      some (scanFormat isNameCharNgx
        (if fmt = "combined" then LOG_FORMAT_COMBINED else fmt)) := by
  have h1 : noDupNames (groupNames (scanFormat isNameCharNgx
      (if fmt = "combined" then LOG_FORMAT_COMBINED else fmt))) = true :=
    (noDupNames_iff _).mpr hnodup
  have h2 : (groupNames (scanFormat isNameCharNgx
      (if fmt = "combined" then LOG_FORMAT_COMBINED else fmt))).all validGroupName = true :=
    List.all_eq_true.mpr hvalid
  have h3 : backslashFree (scanFormat isNameCharNgx
      (if fmt = "combined" then LOG_FORMAT_COMBINED else fmt)) = true := by
    rw [backslashFree, List.all_eq_true]
    intro it hit
    simp only [bne_iff_ne, ne_eq]
    intro hEq
    exact hbsl (hEq ▸ hit)
  unfold build_pattern
  rw [if_pos]
  unfold compileOk
  rw [h1, h2, h3]
  rfl

/-- Witness for C9_amended: `"$request $status"` compiles to the expected
two-group pattern. -/
theorem C9_amended_witness :
    build_pattern "$request $status" =
      some [RItem.group "request", RItem.exact ' ', RItem.group "status"] :=
  C9_amended "$request $status" (by decide) (by decide) (by decide)

/-- C10: counterexample to the claim as stated.  If the template itself
captures `$status_type`, the captured string survives derivation (the
`add_field` stage skips fields that are already present), so the emitted
record's `status_type` is a string, not `status // 100`. -/
theorem C10_counterexample :
    derive shadowCapture = .ok shadowDerived ∧
    shadowDerived "status_type" = some (PyVal.str "9") ∧
    shadowDerived "status" = some (PyVal.int 0) ∧
    some (PyVal.str "9") ≠ statusTypeOf (some (PyVal.int 0)) :=
  ⟨rfl, rfl, rfl, by decide⟩

/-- C10 (amended): every record that the derivation pipeline emits holds all
five derived fields as present keys: `status` is an `int` (0 when not
captured); `status_type` is present, and equals `status // 100` whenever
`status_type` was not itself captured; `bytes_sent` is an `int`;
`request_time` is a `float` (0.0 when not captured); `request_path` is
present, and is `None` when neither it nor `request_uri` nor `request` was
captured. -/
theorem C10_derived_fields (r rd : PyDict) (h : derive r = .ok rd) :
    isIntVal (rd "status") = true ∧
    (r "status" = Option.none → rd "status" = some (PyVal.int 0)) ∧
    (rd "status_type").isSome = true ∧
    (r "status_type" = Option.none → rd "status_type" = statusTypeOf (rd "status")) ∧
    isIntVal (rd "bytes_sent") = true ∧
    isRatVal (rd "request_time") = true ∧
    (r "request_time" = Option.none → rd "request_time" = some (PyVal.rat 0)) ∧
    (rd "request_path").isSome = true ∧
    (r "request_path" = Option.none → r "request_uri" = Option.none →
      r "request" = Option.none → rd "request_path" = some PyVal.none) := by
  obtain ⟨⟨n, hn⟩, d1, p2, c2, ⟨m, hm⟩, ⟨q, hq⟩, d5, p6, c6, _⟩ := derive_fields r rd h
  exact ⟨by rw [hn]; rfl, d1, p2, c2, by rw [hm]; rfl, by rw [hq]; rfl, d5, p6, c6⟩

/-- Witness for C10_derived_fields at `sampleCapture` (a capture with none of
the derived fields captured): all five fields are present with their
default values. -/
theorem C10_derived_fields_witness :
    isIntVal (sampleDerived "status") = true ∧
    sampleDerived "status" = some (PyVal.int 0) ∧
    (sampleDerived "status_type").isSome = true ∧
    sampleDerived "status_type" = statusTypeOf (sampleDerived "status") ∧
    isIntVal (sampleDerived "bytes_sent") = true ∧
    isRatVal (sampleDerived "request_time") = true ∧
    sampleDerived "request_time" = some (PyVal.rat 0) ∧
    (sampleDerived "request_path").isSome = true ∧
    sampleDerived "request_path" = some PyVal.none := by
  have h := C10_derived_fields sampleCapture sampleDerived rfl
  exact ⟨h.1, h.2.1 rfl, h.2.2.1, h.2.2.2.1 rfl, h.2.2.2.2.1, h.2.2.2.2.2.1,
    h.2.2.2.2.2.2.1 rfl, h.2.2.2.2.2.2.2.1, h.2.2.2.2.2.2.2.2 rfl rfl rfl⟩
